import Mathlib

/-!
Verification development for the Tracker repository: a shallow embedding of
the SIYI gimbal protocol engine, connection layer, PID axis controller,
gimbal control loop, and identity-lock tracker selection, together with
theorems checking the natural-language specification against the code.

Machine integers are modelled as `Nat` with explicit bounds and `% 2^w`
where the code wraps; Python floats are modelled as `ℚ`; fallible code
returns `Option`.
-/

set_option maxRecDepth 10000

namespace Tracking

/-!
## Protocol engine
Embedded from `src/Tracker/src/hardware/siyi_sdk/siyi_protocol.py`.
-/

/-- One inner iteration of `SIYIProtocol._calculate_crc16`:
`if crc & 0x8000: crc = (crc << 1) ^ 0x1021 else: crc = crc << 1`,
followed by `crc &= 0xFFFF`. -/
def crcRound (crc : Nat) : Nat :=
  if crc &&& 0x8000 ≠ 0 then ((crc <<< 1) ^^^ 0x1021) &&& 0xFFFF
  else (crc <<< 1) &&& 0xFFFF

/-- Processing one byte in `_calculate_crc16`: `crc ^= (byte << 8)` and then
eight rounds of the inner loop. -/
def crcByte (crc : Nat) (b : Nat) : Nat := crcRound^[8] (crc ^^^ (b <<< 8))

/-- `SIYIProtocol._calculate_crc16` (CRC-16/XMODEM, initial value 0). -/
def crc16 (data : List Nat) : Nat := data.foldl crcByte 0

/-- The mutable state of a `SIYIProtocol` instance: the frame sequence
counter (`self.sequence`, 0-65535, starts at 0). -/
structure SIYIProtocol where
  sequence : Nat
  deriving Repr, DecidableEq

/-- A freshly constructed `SIYIProtocol()` session. -/
def SIYIProtocol.fresh : SIYIProtocol := ⟨0⟩

/-- `SIYIProtocol._get_next_sequence`: return the current counter and
increment it, wrapping at 65536. -/
def getNextSequence (st : SIYIProtocol) : Nat × SIYIProtocol :=
  (st.sequence, ⟨(st.sequence + 1) % 65536⟩)

/-- The bytes of `struct.pack('<HBHHB', STX, ctrl, data_len, seq, cmd_id)`:
little-endian u16 `STX = 0x6655` (low byte first), u8 control byte,
little-endian u16 payload length, little-endian u16 sequence, u8 command. -/
def builtHeader (ctrl data_len seq cmd_id : Nat) : List Nat :=
  [0x55, 0x66, ctrl, data_len % 256, data_len / 256, seq % 256, seq / 256, cmd_id]

/-- `SIYIProtocol.build_packet`.  The header is
`struct.pack('<HBHHB', STX, ctrl, data_len, seq, cmd_id)`; `struct.pack`
raises (modelled as `none`) when a `H` field is not below 65536 or the `B`
field is not below 256.  The sequence counter is consumed before packing,
exactly as in the code.  Returns the built bytes (if any) and the updated
session. -/
def build_packet (st : SIYIProtocol) (cmd_id : Nat) (data : List Nat)
    (need_ack : Bool) : Option (List Nat) × SIYIProtocol :=
  let ctrl := if need_ack then 0x00 else 0x01
  let data_len := data.length
  let (seq, st') := getNextSequence st
  if data_len < 65536 ∧ seq < 65536 ∧ cmd_id < 256 then
    let packet := builtHeader ctrl data_len seq cmd_id ++ data
    let crc := crc16 packet
    (some (packet ++ [crc % 256, crc / 256]), st')
  else (none, st')

/-- The dictionary returned by a successful `SIYIProtocol.parse_packet`. -/
structure ParsedPacket where
  ctrl : Nat
  data_len : Nat
  seq : Nat
  cmd_id : Nat
  data : List Nat
  crc : Nat
  deriving Repr, DecidableEq

/-- Read a little-endian `u16` at offset `i`, as `struct.unpack('<H', ...)`
does on the corresponding two bytes. -/
def readU16 (p : List Nat) (i : Nat) : Nat := p.getD i 0 + 256 * p.getD (i + 1) 0

/-- `SIYIProtocol.parse_packet`: `none` models returning `None`. -/
def parse_packet (packet : List Nat) : Option ParsedPacket :=
  if packet.length < 10 then none
  else
    let stx := readU16 packet 0
    let ctrl := packet.getD 2 0
    let data_len := readU16 packet 3
    let seq := readU16 packet 5
    let cmd_id := packet.getD 7 0
    if stx ≠ 0x6655 then none
    else if packet.length < 8 + data_len + 2 then none
    else
      let data := (packet.drop 8).take data_len
      let received_crc16 := readU16 packet (8 + data_len)
      let calculated_crc16 := crc16 (packet.take (8 + data_len))
      if received_crc16 ≠ calculated_crc16 then none
      else some ⟨ctrl, data_len, seq, cmd_id, data, received_crc16⟩

/-- Flip bit `t` of byte `i` of a byte string (identity when `i` is out of
range, as `List.set` is). -/
def flipBit (p : List Nat) (i t : Nat) : List Nat :=
  p.set i (p.getD i 0 ^^^ 2 ^ t)

/-! ### CRC-16 facts
The round function is GF(2)-linear in the state, and never maps a nonzero
16-bit state to zero (the generator polynomial has a nonzero constant
term), so any single-bit difference in the input changes the checksum. -/

lemma shiftLeft_xor (x y k : Nat) : (x ^^^ y) <<< k = (x <<< k) ^^^ (y <<< k) := by
  apply Nat.eq_of_testBit_eq
  intro j
  simp only [Nat.testBit_shiftLeft, Nat.testBit_xor]
  cases hj : decide (j ≥ k) <;> simp

lemma crcRound_eq (s : Nat) :
    crcRound s = ((s <<< 1) ^^^ (if s.testBit 15 then 0x1021 else 0)) &&& 0xFFFF := by
  have hpow : (0x8000 : Nat) = 2 ^ 15 := by norm_num
  unfold crcRound
  cases h : s.testBit 15 with
  | false =>
      have hz : s &&& 0x8000 = 0 := by
        rw [hpow, Nat.and_two_pow, h]; simp
      simp [hz]
  | true =>
      have hz : s &&& 0x8000 ≠ 0 := by
        rw [hpow, Nat.and_two_pow, h]; norm_num
      simp [hz]

lemma xor_left_comm (a b c : Nat) : a ^^^ (b ^^^ c) = b ^^^ (a ^^^ c) := by
  rw [← Nat.xor_assoc, Nat.xor_comm a b, Nat.xor_assoc]

lemma crcRound_xor (x y : Nat) : crcRound (x ^^^ y) = crcRound x ^^^ crcRound y := by
  rw [crcRound_eq, crcRound_eq, crcRound_eq, ← Nat.and_xor_distrib_right]
  congr 1
  rw [shiftLeft_xor, Nat.testBit_xor]
  cases hx : x.testBit 15 <;> cases hy : y.testBit 15 <;>
    simp [Nat.xor_assoc, Nat.xor_comm, xor_left_comm]

lemma crcRound_iterate_xor (n x y : Nat) :
    crcRound^[n] (x ^^^ y) = crcRound^[n] x ^^^ crcRound^[n] y := by
  induction n generalizing x y with
  | zero => rfl
  | succ n ih =>
      rw [Function.iterate_succ_apply, Function.iterate_succ_apply,
        Function.iterate_succ_apply, crcRound_xor, ih]

lemma crcByte_xor_left (s d b : Nat) :
    crcByte (s ^^^ d) b = crcByte s b ^^^ crcRound^[8] d := by
  unfold crcByte
  rw [show (s ^^^ d) ^^^ (b <<< 8) = (s ^^^ b <<< 8) ^^^ d by
        rw [Nat.xor_assoc, Nat.xor_comm d, ← Nat.xor_assoc],
      crcRound_iterate_xor]

lemma crcByte_xor_byte (s x e : Nat) :
    crcByte s (x ^^^ e) = crcByte s x ^^^ crcRound^[8] (e <<< 8) := by
  unfold crcByte
  rw [shiftLeft_xor, ← Nat.xor_assoc, crcRound_iterate_xor]

lemma foldl_crcByte_xor (B : List Nat) (s d : Nat) :
    B.foldl crcByte (s ^^^ d) = B.foldl crcByte s ^^^ crcRound^[8 * B.length] d := by
  induction B generalizing s d with
  | nil => simp
  | cons b B ih =>
      rw [List.foldl_cons, List.foldl_cons, crcByte_xor_left, ih,
        ← Function.iterate_add_apply,
        show 8 * B.length + 8 = 8 * (b :: B).length by rw [List.length_cons]; ring]

lemma crcRound_lt (s : Nat) : crcRound s < 65536 := by
  unfold crcRound
  split <;> exact Nat.lt_succ_of_le Nat.and_le_right

lemma crcRound_ne_zero {s : Nat} (h0 : s ≠ 0) (hlt : s < 65536) :
    crcRound s ≠ 0 := by
  rw [crcRound_eq]
  cases h : s.testBit 15 with
  | false =>
      have hdiv : s / 2 ^ 15 < 2 := by
        apply Nat.div_lt_of_lt_mul; omega
      have hbit : ¬ s / 2 ^ 15 % 2 = 1 := by
        rw [Nat.testBit_to_div_mod] at h
        simpa using h
      have hs : s < 2 ^ 15 := by
        have : s / 2 ^ 15 = 0 := by omega
        exact (Nat.div_eq_zero_iff (by norm_num)).1 this
      have hshift : s <<< 1 = 2 * s := by rw [Nat.shiftLeft_eq]; ring
      have hmask : (s <<< 1) &&& 0xFFFF = 2 * s := by
        rw [show (0xFFFF : Nat) = 2 ^ 16 - 1 by norm_num,
          Nat.and_pow_two_sub_one_eq_mod, hshift, Nat.mod_eq_of_lt (by omega)]
      rw [if_neg (by simp [h]), Nat.xor_zero, hmask]
      omega
  | true =>
      intro hc
      have h1 : ((s <<< 1) ^^^ 0x1021).testBit 0 = true := by
        rw [Nat.testBit_xor]
        have e1 : (s <<< 1).testBit 0 = false := by
          simp [Nat.testBit_shiftLeft]
        rw [e1, show (0x1021 : Nat).testBit 0 = true by decide]
        rfl
      have hbit0 : (((s <<< 1) ^^^ 0x1021) &&& 0xFFFF).testBit 0 = true := by
        rw [Nat.testBit_and, h1, show (0xFFFF : Nat).testBit 0 = true by decide]
        rfl
      rw [if_pos rfl] at hc
      rw [hc] at hbit0
      simp [Nat.zero_testBit] at hbit0

lemma crcRound_iterate_ne_zero (n : Nat) {s : Nat} (h0 : s ≠ 0) (hlt : s < 65536) :
    crcRound^[n] s ≠ 0 := by
  induction n generalizing s with
  | zero => simpa using h0
  | succ n ih =>
      rw [Function.iterate_succ_apply]
      exact ih (crcRound_ne_zero h0 hlt) (crcRound_lt s)

/-- Flipping one bit of one byte of any byte string changes its CRC-16. -/
theorem crc16_flipBit_ne (m : List Nat) (i t : Nat) (hi : i < m.length) (ht : t < 8) :
    crc16 (flipBit m i t) ≠ crc16 m := by
  have hset : flipBit m i t = m.take i ++ (m[i] ^^^ 2 ^ t) :: m.drop (i + 1) := by
    rw [flipBit, List.set_eq_take_append_cons_drop, if_pos hi, List.getD_eq_getElem m 0 hi]
  have hm : m = m.take i ++ m[i] :: m.drop (i + 1) := by
    conv_lhs => rw [← List.take_append_drop i m, List.drop_eq_getElem_cons hi]
  rw [hset]
  conv_rhs => rw [hm]
  rw [crc16, crc16, List.foldl_append, List.foldl_append, List.foldl_cons,
    List.foldl_cons, crcByte_xor_byte, foldl_crcByte_xor]
  have hpow : (2 ^ t) <<< 8 = 2 ^ (t + 8) := by
    rw [Nat.shiftLeft_eq, ← pow_add]
  have hne : crcRound^[8 * (m.drop (i + 1)).length] (crcRound^[8] ((2 ^ t) <<< 8)) ≠ 0 := by
    rw [← Function.iterate_add_apply]
    apply crcRound_iterate_ne_zero
    · rw [hpow]; positivity
    · rw [hpow]
      calc 2 ^ (t + 8) < 2 ^ 16 := Nat.pow_lt_pow_right (by norm_num) (by omega)
        _ = 65536 := by norm_num
  intro hc
  apply hne
  have h2 := congrArg (fun z => (m.drop (i + 1)).foldl crcByte
    (crcByte ((m.take i).foldl crcByte 0) m[i]) ^^^ z) hc
  simpa [← Nat.xor_assoc, Nat.xor_self, Nat.zero_xor] using h2

/-! ### Shape of built packets -/

/-- The byte string produced by a successful `build_packet`. -/
def builtPacket (ctrl seq cmd : Nat) (data : List Nat) : List Nat :=
  (builtHeader ctrl data.length seq cmd ++ data) ++
    [crc16 (builtHeader ctrl data.length seq cmd ++ data) % 256,
     crc16 (builtHeader ctrl data.length seq cmd ++ data) / 256]

lemma build_packet_some (st : SIYIProtocol) (cmd : Nat) (data : List Nat) (ack : Bool)
    (hc : cmd < 256) (hd : data.length < 65536) (hs : st.sequence < 65536) :
    (build_packet st cmd data ack).1 =
      some (builtPacket (if ack then 0x00 else 0x01) st.sequence cmd data) := by
  simp only [build_packet, getNextSequence, builtPacket]
  rw [if_pos ⟨hd, hs, hc⟩]

lemma build_packet_none (st : SIYIProtocol) (cmd : Nat) (data : List Nat) (ack : Bool)
    (h : ¬ (data.length < 65536 ∧ st.sequence < 65536 ∧ cmd < 256)) :
    (build_packet st cmd data ack).1 = none := by
  simp only [build_packet, getNextSequence]
  rw [if_neg h]

lemma build_packet_some_inv {st : SIYIProtocol} {cmd : Nat} {data : List Nat} {ack : Bool}
    {pkt : List Nat} (h : (build_packet st cmd data ack).1 = some pkt) :
    cmd < 256 ∧ data.length < 65536 ∧ st.sequence < 65536 ∧
      pkt = builtPacket (if ack then 0x00 else 0x01) st.sequence cmd data := by
  by_cases hcond : data.length < 65536 ∧ st.sequence < 65536 ∧ cmd < 256
  · refine ⟨hcond.2.2, hcond.1, hcond.2.1, ?_⟩
    rw [build_packet_some st cmd data ack hcond.2.2 hcond.1 hcond.2.1] at h
    exact (Option.some_injective _ h).symm
  · exfalso
    simp only [build_packet, getNextSequence] at h
    rw [if_neg hcond] at h
    exact Option.noConfusion h

lemma length_builtHeader (ctrl L seq cmd : Nat) :
    (builtHeader ctrl L seq cmd).length = 8 := rfl

lemma builtPacket_length (ctrl seq cmd : Nat) (data : List Nat) :
    (builtPacket ctrl seq cmd data).length = data.length + 10 := by
  rw [builtPacket, List.length_append, List.length_append, length_builtHeader]
  simp only [List.length_cons, List.length_nil]
  omega

lemma builtPacket_getD_lt8 (ctrl seq cmd : Nat) (data : List Nat) (i : Nat) (hi : i < 8) :
    (builtPacket ctrl seq cmd data).getD i 0 =
      (builtHeader ctrl data.length seq cmd).getD i 0 := by
  rw [builtPacket,
    List.getD_append _ _ _ _ (by rw [List.length_append, length_builtHeader]; omega),
    List.getD_append _ _ _ _ (by rw [length_builtHeader]; omega)]

lemma builtPacket_getD_crc0 (ctrl seq cmd : Nat) (data : List Nat) :
    (builtPacket ctrl seq cmd data).getD (8 + data.length) 0 =
      crc16 (builtHeader ctrl data.length seq cmd ++ data) % 256 := by
  have hAlen : (builtHeader ctrl data.length seq cmd ++ data).length = 8 + data.length := by
    rw [List.length_append, length_builtHeader]
  rw [builtPacket, List.getD_append_right _ _ _ _ (by omega), hAlen,
    show 8 + data.length - (8 + data.length) = 0 by omega]
  rfl

lemma builtPacket_getD_crc1 (ctrl seq cmd : Nat) (data : List Nat) :
    (builtPacket ctrl seq cmd data).getD (8 + data.length + 1) 0 =
      crc16 (builtHeader ctrl data.length seq cmd ++ data) / 256 := by
  have hAlen : (builtHeader ctrl data.length seq cmd ++ data).length = 8 + data.length := by
    rw [List.length_append, length_builtHeader]
  rw [builtPacket, List.getD_append_right _ _ _ _ (by omega), hAlen,
    show 8 + data.length + 1 - (8 + data.length) = 1 by omega]
  rfl

lemma builtPacket_take (ctrl seq cmd : Nat) (data : List Nat) :
    (builtPacket ctrl seq cmd data).take (8 + data.length) =
      builtHeader ctrl data.length seq cmd ++ data := by
  rw [builtPacket]
  exact List.take_left' (by rw [List.length_append, length_builtHeader])

lemma builtPacket_drop_take (ctrl seq cmd : Nat) (data : List Nat) :
    ((builtPacket ctrl seq cmd data).drop 8).take data.length = data := by
  rw [builtPacket, List.append_assoc, List.drop_left' (length_builtHeader _ _ _ _),
    List.take_left' rfl]

lemma builtHeader_getD_0 (ctrl L seq cmd : Nat) :
    (builtHeader ctrl L seq cmd).getD 0 0 = 0x55 := rfl

lemma builtHeader_getD_1 (ctrl L seq cmd : Nat) :
    (builtHeader ctrl L seq cmd).getD 1 0 = 0x66 := rfl

lemma builtPacket_readU16_0 (ctrl seq cmd : Nat) (data : List Nat) :
    readU16 (builtPacket ctrl seq cmd data) 0 = 0x6655 := by
  rw [readU16, show (0 + 1 : Nat) = 1 from rfl,
    builtPacket_getD_lt8 ctrl seq cmd data 0 (by omega),
    builtPacket_getD_lt8 ctrl seq cmd data 1 (by omega),
    builtHeader_getD_0, builtHeader_getD_1]

lemma builtPacket_readU16_3 (ctrl seq cmd : Nat) (data : List Nat) :
    readU16 (builtPacket ctrl seq cmd data) 3 = data.length := by
  rw [readU16, show (3 + 1 : Nat) = 4 from rfl,
    builtPacket_getD_lt8 ctrl seq cmd data 3 (by omega),
    builtPacket_getD_lt8 ctrl seq cmd data 4 (by omega)]
  exact Nat.mod_add_div _ _

lemma builtPacket_readU16_5 (ctrl seq cmd : Nat) (data : List Nat) :
    readU16 (builtPacket ctrl seq cmd data) 5 = seq := by
  rw [readU16, show (5 + 1 : Nat) = 6 from rfl,
    builtPacket_getD_lt8 ctrl seq cmd data 5 (by omega),
    builtPacket_getD_lt8 ctrl seq cmd data 6 (by omega)]
  exact Nat.mod_add_div _ _

lemma builtPacket_readU16_crc (ctrl seq cmd : Nat) (data : List Nat) :
    readU16 (builtPacket ctrl seq cmd data) (8 + data.length) =
      crc16 (builtHeader ctrl data.length seq cmd ++ data) := by
  rw [readU16, builtPacket_getD_crc0, builtPacket_getD_crc1]
  exact Nat.mod_add_div _ _

/-- Parsing a well-formed framed packet recovers all its fields. -/
lemma parse_packet_built (ctrl seq cmd : Nat) (data : List Nat) :
    parse_packet (builtPacket ctrl seq cmd data) =
      some ⟨ctrl, data.length, seq, cmd, data,
        crc16 (builtHeader ctrl data.length seq cmd ++ data)⟩ := by
  have h2 : (builtPacket ctrl seq cmd data).getD 2 0 = ctrl :=
    builtPacket_getD_lt8 ctrl seq cmd data 2 (by omega)
  have h7 : (builtPacket ctrl seq cmd data).getD 7 0 = cmd :=
    builtPacket_getD_lt8 ctrl seq cmd data 7 (by omega)
  have hlen := builtPacket_length ctrl seq cmd data
  rw [parse_packet]
  rw [if_neg (by omega)]
  simp only [builtPacket_readU16_0, builtPacket_readU16_3, builtPacket_readU16_5,
    builtPacket_readU16_crc, builtPacket_drop_take, builtPacket_take, h2, h7, hlen]
  rw [if_neg (by norm_num)]
  rw [if_neg (by omega)]
  rw [if_neg (by simp)]

/-! ### Sequencing: consecutive builds on one session -/

/-- Folding a list of `build_packet` calls (command id, payload, need_ack)
over a session, keeping the final session state. -/
def applyBuilds (calls : List (Nat × List Nat × Bool)) (st : SIYIProtocol) : SIYIProtocol :=
  calls.foldl (fun s c => (build_packet s c.1 c.2.1 c.2.2).2) st

lemma build_packet_snd (st : SIYIProtocol) (cmd : Nat) (data : List Nat) (ack : Bool) :
    (build_packet st cmd data ack).2 = ⟨(st.sequence + 1) % 65536⟩ := by
  simp only [build_packet, getNextSequence]
  split <;> rfl

lemma applyBuilds_sequence (calls : List (Nat × List Nat × Bool)) (s : Nat)
    (hs : s < 65536) :
    (applyBuilds calls ⟨s⟩).sequence = (s + calls.length) % 65536 := by
  induction calls generalizing s with
  | nil => simpa [applyBuilds] using (Nat.mod_eq_of_lt hs).symm
  | cons c cs ih =>
      have hstep : applyBuilds (c :: cs) ⟨s⟩ = applyBuilds cs ⟨(s + 1) % 65536⟩ := by
        simp only [applyBuilds, List.foldl_cons, build_packet_snd]
      rw [hstep, ih ((s + 1) % 65536) (Nat.mod_lt _ (by omega)), List.length_cons]
      omega

/-! ### Claim theorems for the protocol engine -/

/-- **C1** (amended): for every command id `C < 256` and every payload byte
string `P` of length below 65536 (`struct.pack` raises on longer payloads,
so no packet is built for them), on any session state, parsing the built
packet succeeds and yields command id `C` and payload byte-identical to
`P`, for either value of `need_ack`. -/
theorem parse_build_roundtrip (st : SIYIProtocol) (cmd : Nat) (data : List Nat)
    (ack : Bool) (hc : cmd < 256) (hd : data.length < 65536)
    (hs : st.sequence < 65536) :
    ∃ pkt r, (build_packet st cmd data ack).1 = some pkt ∧
      parse_packet pkt = some r ∧ r.cmd_id = cmd ∧ r.data = data :=
  ⟨_, _, build_packet_some st cmd data ack hc hd hs, parse_packet_built _ _ _ _,
    rfl, rfl⟩

theorem parse_build_roundtrip_witness :
    ∃ pkt r, (build_packet .fresh 0x08 [0x01] false).1 = some pkt ∧
      parse_packet pkt = some r ∧ r.cmd_id = 0x08 ∧ r.data = [0x01] :=
  parse_build_roundtrip .fresh 0x08 [0x01] false (by decide) (by decide) (by decide)

/-- **C1** counterexample: with command id 0 and a 65536-byte payload,
`struct.pack('<HBHHB', ...)` raises (the u16 length field cannot hold
65536), so `build_packet` produces no bytes and the round trip as claimed
for every payload fails. -/
theorem parse_build_overlong_payload_fails :
    ¬ ∃ pkt r, (build_packet .fresh 0 (List.replicate 65536 0) false).1 = some pkt ∧
      parse_packet pkt = some r ∧ r.cmd_id = 0 ∧ r.data = List.replicate 65536 0 := by
  rintro ⟨pkt, r, hb, _⟩
  have hn : (build_packet .fresh 0 (List.replicate 65536 0) false).1 = none := by
    apply build_packet_none
    rw [List.length_replicate]
    intro h
    exact absurd h.1 (lt_irrefl _)
  rw [hn] at hb
  exact Option.noConfusion hb

/-- **C3** counterexample: on a fresh session, the heartbeat command with an
*empty* payload builds to the 10-byte string
`55 66 01 00 00 00 00 00 45 d4`, not to the 11-byte vector
`55 66 01 01 00 00 00 00 00 59 8b` (whose length field is 1). -/
theorem heartbeat_empty_payload_not_vector :
    (build_packet .fresh 0x00 [] false).1 =
      some [0x55, 0x66, 0x01, 0x00, 0x00, 0x00, 0x00, 0x00, 0x45, 0xd4] ∧
    (build_packet .fresh 0x00 [] false).1 ≠
      some [0x55, 0x66, 0x01, 0x01, 0x00, 0x00, 0x00, 0x00, 0x00, 0x59, 0x8b] := by
  decide

/-- **C3** (amended): on a fresh session, the heartbeat command with the
one-byte payload `00` — the payload `SIYIConnection._heartbeat_loop`
actually sends — builds to exactly `55 66 01 01 00 00 00 00 00 59 8b`. -/
theorem heartbeat_vector :
    (build_packet .fresh 0x00 [0x00] false).1 =
      some [0x55, 0x66, 0x01, 0x01, 0x00, 0x00, 0x00, 0x00, 0x00, 0x59, 0x8b] := by
  decide

/-- **C4**: after `N` builds on a fresh session the counter reads
`N % 65536`, and the next build (the `(N+1)`-th) embeds sequence number
`N % 65536` into its packet; with `N = 65536` the 65537-th build therefore
uses sequence 0 again. -/
theorem builds_use_consecutive_sequences (past : List (Nat × List Nat × Bool))
    (cmd : Nat) (data : List Nat) (ack : Bool)
    (hc : cmd < 256) (hd : data.length < 65536) :
    (applyBuilds past .fresh).sequence = past.length % 65536 ∧
    ∃ pkt r, (build_packet (applyBuilds past .fresh) cmd data ack).1 = some pkt ∧
      parse_packet pkt = some r ∧ r.seq = past.length % 65536 := by
  have hseq : (applyBuilds past .fresh).sequence = past.length % 65536 := by
    simpa using applyBuilds_sequence past 0 (by omega)
  refine ⟨hseq, ?_⟩
  have hs : (applyBuilds past .fresh).sequence < 65536 := by
    rw [hseq]; exact Nat.mod_lt _ (by omega)
  exact ⟨_, _, build_packet_some _ cmd data ack hc hd hs,
    parse_packet_built _ _ _ _, hseq⟩

theorem builds_use_consecutive_sequences_witness :
    (applyBuilds [(0, [], false)] .fresh).sequence = 1 % 65536 ∧
    ∃ pkt r,
      (build_packet (applyBuilds [(0, [], false)] .fresh) 8 [1] false).1 = some pkt ∧
      parse_packet pkt = some r ∧ r.seq = 1 % 65536 :=
  builds_use_consecutive_sequences [(0, [], false)] 8 [1] false (by decide) (by decide)

/-! ### C2: single-bit corruption -/

lemma getD_set_ne (p : List Nat) {i j : Nat} (h : i ≠ j) (v d : Nat) :
    (p.set i v).getD j d = p.getD j d := by
  rw [List.getD_eq_getElem?_getD, List.getD_eq_getElem?_getD, List.getElem?_set_ne h]

lemma getD_set_self (p : List Nat) {i : Nat} (hi : i < p.length) (v d : Nat) :
    (p.set i v).getD i d = v := by
  rw [List.getD_eq_getElem?_getD, List.getElem?_set_self hi]
  rfl

lemma xor_two_pow_ne (x t : Nat) : x ^^^ 2 ^ t ≠ x := by
  intro h
  have h2 : (2 : Nat) ^ t = 0 := by
    have h3 := congrArg (fun z => x ^^^ z) h
    simp only [← Nat.xor_assoc, Nat.xor_self, Nat.zero_xor] at h3
    exact h3
  exact absurd h2 (by positivity)

lemma builtPacket_getD_pref (ctrl seq cmd : Nat) (data : List Nat) (j : Nat)
    (hj : j < 8 + data.length) :
    (builtPacket ctrl seq cmd data).getD j 0 =
      (builtHeader ctrl data.length seq cmd ++ data).getD j 0 := by
  rw [builtPacket]
  exact List.getD_append _ _ _ _ (by rw [List.length_append, length_builtHeader]; omega)

/-- Flipping a single bit of a framed packet anywhere outside the two
payload-length bytes (indices 3 and 4) yields bytes `parse_packet`
rejects. -/
theorem parse_flip_builtPacket_none (ctrl seq cmd : Nat) (data : List Nat)
    (i t : Nat) (hi : i < data.length + 10) (ht : t < 8) (hi3 : i ≠ 3) (hi4 : i ≠ 4) :
    parse_packet (flipBit (builtPacket ctrl seq cmd data) i t) = none := by
  have hPlen := builtPacket_length ctrl seq cmd data
  have hQlen : (flipBit (builtPacket ctrl seq cmd data) i t).length =
      data.length + 10 := by
    rw [flipBit, List.length_set, hPlen]
  have hQne : ∀ j, i ≠ j →
      (flipBit (builtPacket ctrl seq cmd data) i t).getD j 0 =
        (builtPacket ctrl seq cmd data).getD j 0 := by
    intro j hj
    rw [flipBit, getD_set_ne _ hj]
  have hQeq : (flipBit (builtPacket ctrl seq cmd data) i t).getD i 0 =
      (builtPacket ctrl seq cmd data).getD i 0 ^^^ 2 ^ t := by
    rw [flipBit, getD_set_self _ (by omega)]
  have hcases : i = 0 ∨ i = 1 ∨ (2 ≤ i ∧ i < 8 + data.length) ∨
      i = 8 + data.length ∨ i = 8 + data.length + 1 := by omega
  rcases hcases with h0 | h1 | hmid | hc0 | hc1
  · -- flip in the low STX byte: start marker check fails
    subst h0
    have hp0 : (builtPacket ctrl seq cmd data).getD 0 0 = 0x55 := by
      rw [builtPacket_getD_lt8 ctrl seq cmd data 0 (by omega), builtHeader_getD_0]
    have hp1 : (builtPacket ctrl seq cmd data).getD 1 0 = 0x66 := by
      rw [builtPacket_getD_lt8 ctrl seq cmd data 1 (by omega), builtHeader_getD_1]
    have hstx : readU16 (flipBit (builtPacket ctrl seq cmd data) 0 t) 0 =
        (0x55 ^^^ 2 ^ t) + 256 * 0x66 := by
      rw [readU16, show (0 + 1 : Nat) = 1 from rfl, hQeq, hQne 1 (by omega), hp0, hp1]
    rw [parse_packet, if_neg (by omega)]
    rw [if_pos]
    rw [hstx]
    intro h
    exact xor_two_pow_ne 0x55 t (by omega)
  · -- flip in the high STX byte: start marker check fails
    subst h1
    have hp0 : (builtPacket ctrl seq cmd data).getD 0 0 = 0x55 := by
      rw [builtPacket_getD_lt8 ctrl seq cmd data 0 (by omega), builtHeader_getD_0]
    have hp1 : (builtPacket ctrl seq cmd data).getD 1 0 = 0x66 := by
      rw [builtPacket_getD_lt8 ctrl seq cmd data 1 (by omega), builtHeader_getD_1]
    have hstx : readU16 (flipBit (builtPacket ctrl seq cmd data) 1 t) 0 =
        0x55 + 256 * (0x66 ^^^ 2 ^ t) := by
      rw [readU16, show (0 + 1 : Nat) = 1 from rfl, hQeq, hQne 0 (by omega), hp0, hp1]
    rw [parse_packet, if_neg (by omega)]
    rw [if_pos]
    rw [hstx]
    intro h
    have h66 : 0x66 ^^^ 2 ^ t = 0x66 := by omega
    exact xor_two_pow_ne 0x66 t h66
  · -- flip inside the CRC-protected region: checksum check fails
    have hstx : readU16 (flipBit (builtPacket ctrl seq cmd data) i t) 0 = 0x6655 := by
      rw [readU16, show (0 + 1 : Nat) = 1 from rfl, hQne 0 (by omega), hQne 1 (by omega),
        ← show (0 + 1 : Nat) = 1 from rfl, ← readU16]
      exact builtPacket_readU16_0 ctrl seq cmd data
    have hdl : readU16 (flipBit (builtPacket ctrl seq cmd data) i t) 3 = data.length := by
      rw [readU16, show (3 + 1 : Nat) = 4 from rfl, hQne 3 hi3, hQne 4 hi4,
        ← show (3 + 1 : Nat) = 4 from rfl, ← readU16]
      exact builtPacket_readU16_3 ctrl seq cmd data
    have hrecv : readU16 (flipBit (builtPacket ctrl seq cmd data) i t)
        (8 + data.length) =
        crc16 (builtHeader ctrl data.length seq cmd ++ data) := by
      rw [readU16, hQne (8 + data.length) (by omega),
        hQne (8 + data.length + 1) (by omega), ← readU16]
      exact builtPacket_readU16_crc ctrl seq cmd data
    have htake : (flipBit (builtPacket ctrl seq cmd data) i t).take (8 + data.length) =
        flipBit (builtHeader ctrl data.length seq cmd ++ data) i t := by
      rw [flipBit, List.set_take, builtPacket_take, flipBit,
        builtPacket_getD_pref ctrl seq cmd data i hmid.2]
    have hne : crc16 (flipBit (builtHeader ctrl data.length seq cmd ++ data) i t) ≠
        crc16 (builtHeader ctrl data.length seq cmd ++ data) :=
      crc16_flipBit_ne _ i t
        (by rw [List.length_append, length_builtHeader]; omega) ht
    rw [parse_packet, if_neg (by omega)]
    simp only [hstx, hdl, hrecv, htake, hQlen]
    rw [if_neg (by norm_num)]
    rw [if_neg (by omega)]
    rw [if_pos (Ne.symm hne)]
  · -- flip in the low checksum byte: stored and computed CRC disagree
    subst hc0
    have hstx : readU16 (flipBit (builtPacket ctrl seq cmd data) (8 + data.length) t) 0 =
        0x6655 := by
      rw [readU16, show (0 + 1 : Nat) = 1 from rfl, hQne 0 (by omega), hQne 1 (by omega),
        ← show (0 + 1 : Nat) = 1 from rfl, ← readU16]
      exact builtPacket_readU16_0 ctrl seq cmd data
    have hdl : readU16 (flipBit (builtPacket ctrl seq cmd data) (8 + data.length) t) 3 =
        data.length := by
      rw [readU16, show (3 + 1 : Nat) = 4 from rfl, hQne 3 hi3, hQne 4 hi4,
        ← show (3 + 1 : Nat) = 4 from rfl, ← readU16]
      exact builtPacket_readU16_3 ctrl seq cmd data
    have hrecv : readU16 (flipBit (builtPacket ctrl seq cmd data) (8 + data.length) t)
        (8 + data.length) =
        (crc16 (builtHeader ctrl data.length seq cmd ++ data) % 256 ^^^ 2 ^ t) +
          256 * (crc16 (builtHeader ctrl data.length seq cmd ++ data) / 256) := by
      rw [readU16, hQeq, hQne (8 + data.length + 1) (by omega),
        builtPacket_getD_crc0, builtPacket_getD_crc1]
    have htake : (flipBit (builtPacket ctrl seq cmd data) (8 + data.length) t).take
        (8 + data.length) = builtHeader ctrl data.length seq cmd ++ data := by
      rw [flipBit, List.set_take, builtPacket_take,
        List.set_eq_of_length_le (by rw [List.length_append, length_builtHeader])]
    rw [parse_packet, if_neg (by omega)]
    simp only [hstx, hdl, hrecv, htake, hQlen]
    rw [if_neg (by norm_num)]
    rw [if_neg (by omega)]
    rw [if_pos]
    intro h
    have hx : crc16 (builtHeader ctrl data.length seq cmd ++ data) % 256 ^^^ 2 ^ t =
        crc16 (builtHeader ctrl data.length seq cmd ++ data) % 256 := by omega
    exact xor_two_pow_ne _ t hx
  · -- flip in the high checksum byte: stored and computed CRC disagree
    subst hc1
    have hstx : readU16
        (flipBit (builtPacket ctrl seq cmd data) (8 + data.length + 1) t) 0 =
        0x6655 := by
      rw [readU16, show (0 + 1 : Nat) = 1 from rfl, hQne 0 (by omega), hQne 1 (by omega),
        ← show (0 + 1 : Nat) = 1 from rfl, ← readU16]
      exact builtPacket_readU16_0 ctrl seq cmd data
    have hdl : readU16
        (flipBit (builtPacket ctrl seq cmd data) (8 + data.length + 1) t) 3 =
        data.length := by
      rw [readU16, show (3 + 1 : Nat) = 4 from rfl, hQne 3 hi3, hQne 4 hi4,
        ← show (3 + 1 : Nat) = 4 from rfl, ← readU16]
      exact builtPacket_readU16_3 ctrl seq cmd data
    have hrecv : readU16
        (flipBit (builtPacket ctrl seq cmd data) (8 + data.length + 1) t)
        (8 + data.length) =
        crc16 (builtHeader ctrl data.length seq cmd ++ data) % 256 +
          256 * (crc16 (builtHeader ctrl data.length seq cmd ++ data) / 256 ^^^ 2 ^ t) := by
      rw [readU16, hQeq, hQne (8 + data.length) (by omega),
        builtPacket_getD_crc0, builtPacket_getD_crc1]
    have htake : (flipBit (builtPacket ctrl seq cmd data) (8 + data.length + 1) t).take
        (8 + data.length) = builtHeader ctrl data.length seq cmd ++ data := by
      rw [flipBit, List.set_take, builtPacket_take,
        List.set_eq_of_length_le (by rw [List.length_append, length_builtHeader]; omega)]
    rw [parse_packet, if_neg (by omega)]
    simp only [hstx, hdl, hrecv, htake, hQlen]
    rw [if_neg (by norm_num)]
    rw [if_neg (by omega)]
    rw [if_pos]
    intro h
    have hx : crc16 (builtHeader ctrl data.length seq cmd ++ data) / 256 ^^^ 2 ^ t =
        crc16 (builtHeader ctrl data.length seq cmd ++ data) / 256 := by omega
    exact xor_two_pow_ne _ t hx

/-- **C2** (amended): for every packet produced by `build_packet`, flipping
any single bit at a byte index other than 3 and 4 (the little-endian
payload-length field) makes `parse_packet` fail.  A flip inside the length
field can produce a byte string that still parses (see the
counterexample). -/
theorem flip_nonlength_bit_fails (st : SIYIProtocol) (cmd : Nat) (data : List Nat)
    (ack : Bool) (pkt : List Nat) (hb : (build_packet st cmd data ack).1 = some pkt)
    (i t : Nat) (hi : i < pkt.length) (ht : t < 8) (hi3 : i ≠ 3) (hi4 : i ≠ 4) :
    parse_packet (flipBit pkt i t) = none := by
  obtain ⟨hc, hd, hs, rfl⟩ := build_packet_some_inv hb
  exact parse_flip_builtPacket_none _ _ _ _ i t
    (by rw [builtPacket_length] at hi; exact hi) ht hi3 hi4

theorem flip_nonlength_bit_fails_witness :
    parse_packet (flipBit [0x55, 0x66, 0x01, 0x01, 0x00, 0x00, 0x00, 0x00, 0x00,
      0x59, 0x8b] 8 0) = none :=
  flip_nonlength_bit_fails .fresh 0x00 [0x00] false _ (by decide) 8 0
    (by decide) (by decide) (by decide) (by decide)

/-- **C2** counterexample: the packet built for command `0x2d` with payload
`8a` on a fresh session is `55 66 01 01 00 00 00 2d 8a 21 cb`; flipping bit
0 of byte 3 (the low byte of the payload-length field) yields a byte string
that `parse_packet` accepts as a packet with declared length 0, so not
every single-bit flip is rejected. -/
theorem flip_length_bit_can_parse :
    (build_packet .fresh 0x2d [0x8a] false).1 =
      some [0x55, 0x66, 0x01, 0x01, 0x00, 0x00, 0x00, 0x2d, 0x8a, 0x21, 0xcb] ∧
    parse_packet (flipBit [0x55, 0x66, 0x01, 0x01, 0x00, 0x00, 0x00, 0x2d, 0x8a,
      0x21, 0xcb] 3 0) = some ⟨0x01, 0, 0, 0x2d, [], 0x218a⟩ := by
  decide

/-! ### C5 and C10: the parser as a function of its input -/

/-- Characterization of `parse_packet` as a single conditional on its
input: shared helper for the parser claims. -/
lemma parse_packet_characterization (p : List Nat) :
    parse_packet p =
      if p.length < 10 ∨ readU16 p 0 ≠ 0x6655 ∨ p.length - 10 < readU16 p 3 ∨
          readU16 p (8 + readU16 p 3) ≠ crc16 (p.take (8 + readU16 p 3))
      then none
      else some ⟨p.getD 2 0, readU16 p 3, readU16 p 5, p.getD 7 0,
        (p.drop 8).take (readU16 p 3), readU16 p (8 + readU16 p 3)⟩ := by
  rw [parse_packet]
  by_cases hlen : p.length < 10
  · rw [if_pos hlen, if_pos (Or.inl hlen)]
  · rw [if_neg hlen]
    by_cases hstx : readU16 p 0 = 0x6655
    · simp only [hstx]
      rw [if_neg (by norm_num)]
      by_cases hdl : p.length < 8 + readU16 p 3 + 2
      · rw [if_pos hdl, if_pos (Or.inr (Or.inr (Or.inl (by omega))))]
      · rw [if_neg hdl]
        by_cases hcrc : readU16 p (8 + readU16 p 3) = crc16 (p.take (8 + readU16 p 3))
        · rw [if_neg (not_not_intro hcrc), if_neg (by
            rintro (h | h | h | h)
            · exact hlen h
            · exact h rfl
            · omega
            · exact h hcrc)]
        · rw [if_pos hcrc, if_pos (Or.inr (Or.inr (Or.inr hcrc)))]
    · rw [if_pos hstx, if_pos (Or.inr (Or.inl hstx))]

/-- **C5**: `parse_packet` fails exactly when the input is shorter than 10
bytes, or the 2-byte little-endian start marker differs from `0x6655`, or
the declared payload length exceeds the bytes available after the 8-byte
header and 2-byte checksum, or the recomputed CRC-16 disagrees with the
trailing checksum; on every other input it succeeds and yields the control
flag, declared length, sequence, command id, payload slice and checksum
read from the input. -/
theorem parse_packet_spec (p : List Nat) :
    parse_packet p =
      if p.length < 10 ∨ readU16 p 0 ≠ 0x6655 ∨ p.length - 10 < readU16 p 3 ∨
          readU16 p (8 + readU16 p 3) ≠ crc16 (p.take (8 + readU16 p 3))
      then none
      else some ⟨p.getD 2 0, readU16 p 3, readU16 p 5, p.getD 7 0,
        (p.drop 8).take (readU16 p 3), readU16 p (8 + readU16 p 3)⟩ :=
  parse_packet_characterization p

example :
    parse_packet [0x55, 0x66, 0x01, 0x01, 0x00, 0x00, 0x00, 0x00, 0x00, 0x59, 0x8b] =
      some ⟨0x01, 1, 0, 0x00, [0x00], 0x8b59⟩ ∧
    parse_packet [0x55, 0x66, 0x01, 0x01, 0x00, 0x00, 0x00, 0x00, 0x00, 0x59, 0x8c] =
      none ∧
    parse_packet [0x55, 0x66, 0x01] = none := by
  decide

/-- **C10**: bytes beyond the declared payload and trailing checksum are
ignored: appending any junk to an input that parses successfully leaves the
parse result unchanged, all fields included. -/
theorem parse_packet_ignores_trailing_junk (p junk : List Nat) (r : ParsedPacket)
    (h : parse_packet p = some r) : parse_packet (p ++ junk) = some r := by
  rw [parse_packet_characterization] at h
  by_cases hcond : p.length < 10 ∨ readU16 p 0 ≠ 0x6655 ∨
      p.length - 10 < readU16 p 3 ∨
      readU16 p (8 + readU16 p 3) ≠ crc16 (p.take (8 + readU16 p 3))
  · rw [if_pos hcond] at h
    exact Option.noConfusion h
  · rw [if_neg hcond] at h
    push_neg at hcond
    obtain ⟨hlen, hstx, hdl, hcrc⟩ := hcond
    have hgd : ∀ j, j < p.length → (p ++ junk).getD j 0 = p.getD j 0 := by
      intro j hj
      exact List.getD_append _ _ _ _ hj
    have hru : ∀ j, j + 1 < p.length → readU16 (p ++ junk) j = readU16 p j := by
      intro j hj
      rw [readU16, readU16, hgd j (by omega), hgd (j + 1) (by omega)]
    have hr0 : readU16 (p ++ junk) 0 = readU16 p 0 := hru 0 (by omega)
    have hr3 : readU16 (p ++ junk) 3 = readU16 p 3 := hru 3 (by omega)
    have hr5 : readU16 (p ++ junk) 5 = readU16 p 5 := hru 5 (by omega)
    have hrc : readU16 (p ++ junk) (8 + readU16 p 3) = readU16 p (8 + readU16 p 3) :=
      hru (8 + readU16 p 3) (by omega)
    have htk : (p ++ junk).take (8 + readU16 p 3) = p.take (8 + readU16 p 3) :=
      List.take_append_of_le_length (by omega)
    have hdt : ((p ++ junk).drop 8).take (readU16 p 3) =
        (p.drop 8).take (readU16 p 3) := by
      rw [List.drop_append_of_le_length (by omega),
        List.take_append_of_le_length (by rw [List.length_drop]; omega)]
    rw [parse_packet_characterization, hr0, hr3, hr5, hrc, htk, hdt,
      hgd 2 (by omega), hgd 7 (by omega)]
    rw [if_neg (by
      rw [List.length_append]
      rintro (h1 | h1 | h1 | h1)
      · omega
      · exact absurd hstx h1
      · omega
      · exact absurd hcrc h1)]
    exact h

theorem parse_packet_ignores_trailing_junk_witness :
    parse_packet ([0x55, 0x66, 0x01, 0x01, 0x00, 0x00, 0x00, 0x00, 0x00, 0x59, 0x8b] ++
        [0xff, 0x00, 0x12]) = some ⟨0x01, 1, 0, 0x00, [0x00], 0x8b59⟩ :=
  parse_packet_ignores_trailing_junk
    [0x55, 0x66, 0x01, 0x01, 0x00, 0x00, 0x00, 0x00, 0x00, 0x59, 0x8b]
    [0xff, 0x00, 0x12] ⟨0x01, 1, 0, 0x00, [0x00], 0x8b59⟩ (by decide)

/-!
## PID axis controller
Embedded from `src/Tracker/src/utils/pid.py`.  Python floats are modelled
as `ℚ`; wall-clock readings (`time.time()`) are passed in explicitly.
-/

/-- The state of a `PIDController` instance. -/
structure PIDController where
  kp : ℚ
  ki : ℚ
  kd : ℚ
  min_out : ℚ
  max_out : ℚ
  prev_error : ℚ
  integral : ℚ
  last_time : Option ℚ
  deriving Repr, DecidableEq

/-- `PIDController.__init__(kp, ki, kd, output_limits)`: zero accumulators
and no previous timestamp. -/
def mkPID (kp ki kd : ℚ) (output_limits : ℚ × ℚ) : PIDController :=
  ⟨kp, ki, kd, output_limits.1, output_limits.2, 0, 0, none⟩

/-- `PIDController.update(error)` at wall-clock time `current_time`:
returns the clamped output and the updated state. -/
def PIDController.update (st : PIDController) (error current_time : ℚ) :
    ℚ × PIDController :=
  let dt : ℚ :=
    match st.last_time with
    | none => 0
    | some prev => current_time - prev
  let integral := st.integral + error * dt
  let p_term := st.kp * error
  let i_term := st.ki * integral
  let d_term : ℚ := if dt > 0 then st.kd * (error - st.prev_error) / dt else 0
  let output := p_term + i_term + d_term
  (max (min output st.max_out) st.min_out,
   { st with prev_error := error, integral := integral,
             last_time := some current_time })

/-- `PIDController.reset()`. -/
def PIDController.reset (st : PIDController) : PIDController :=
  { st with prev_error := 0, integral := 0, last_time := none }

/-- **C6**: the first `update(e)` after construction or after `reset()`
uses `dt = 0`: the derivative term contributes nothing, the integral
accumulator is unchanged, and the output is `Kp*e + Ki*integral` clamped to
the configured output range. -/
theorem pid_first_update (st : PIDController) (e t : ℚ)
    (h : (∃ kp ki kd lims, st = mkPID kp ki kd lims) ∨
         ∃ st0, st = PIDController.reset st0) :
    (st.update e t).1 =
      max (min (st.kp * e + st.ki * st.integral) st.max_out) st.min_out ∧
    (st.update e t).2.integral = st.integral := by
  have hlt : st.last_time = none := by
    rcases h with ⟨kp, ki, kd, lims, rfl⟩ | ⟨st0, rfl⟩ <;> rfl
  simp only [PIDController.update, hlt]
  norm_num

theorem pid_first_update_witness :
    ((mkPID 1 0 0 (-100, 100)).update 5 3).1 =
      max (min ((mkPID 1 0 0 (-100, 100)).kp * 5 +
        (mkPID 1 0 0 (-100, 100)).ki * (mkPID 1 0 0 (-100, 100)).integral)
        (mkPID 1 0 0 (-100, 100)).max_out) (mkPID 1 0 0 (-100, 100)).min_out ∧
    ((mkPID 1 0 0 (-100, 100)).update 5 3).2.integral =
      (mkPID 1 0 0 (-100, 100)).integral :=
  pid_first_update (mkPID 1 0 0 (-100, 100)) 5 3
    (Or.inl ⟨1, 0, 0, (-100, 100), rfl⟩)

/-!
## Gimbal controller
Embedded from `src/Tracker/src/hardware/gimbal.py`.  Device commands sent
through the SDK facade are recorded as an explicit list; `int(...)`
truncates toward zero as in Python.
-/

/-- Python `int(q)` on a float: truncation toward zero. -/
def pyInt (q : ℚ) : Int := if q < 0 then ⌈q⌉ else ⌊q⌋

/-- A device command issued through the SDK facade
(`sdk.rotate_gimbal` / `sdk.center_gimbal`). -/
inductive GimbalCmd where
  | rotate (yaw pitch : Int)
  | center
  deriving Repr, DecidableEq

/-- The state of a `GimbalController` instance. -/
structure GimbalController where
  connected : Bool
  pid_yaw : PIDController
  pid_pitch : PIDController
  deadzone : ℚ
  move_interval : ℚ
  last_move_time : ℚ
  deriving Repr, DecidableEq

/-- `GimbalController.update_tracking(error_x, error_y)`.  `tPid` is the
wall-clock time seen by `PIDController.update`, `now` the one read for the
send throttle.  Returns the value the method returns (`None` when not
connected, else the speed pair), the updated controller, and the device
commands issued (`stop()` sends `rotate(0, 0)` when connected). -/
def update_tracking (g : GimbalController) (error_x error_y tPid now : ℚ) :
    Option (Int × Int) × GimbalController × List GimbalCmd :=
  if g.connected = false then (none, g, [])
  else
    let yawStep : Int × PIDController :=
      if |error_x| > g.deadzone then
        let r := g.pid_yaw.update error_x tPid
        (pyInt r.1, r.2)
      else (0, g.pid_yaw.reset)
    let pitchStep : Int × PIDController :=
      if |error_y| > g.deadzone then
        let r := g.pid_pitch.update (-error_y) tPid
        (pyInt r.1, r.2)
      else (0, g.pid_pitch.reset)
    let yaw_speed := yawStep.1
    let pitch_speed := pitchStep.1
    let sendStep : List GimbalCmd × ℚ :=
      if now - g.last_move_time > g.move_interval then
        (if yaw_speed ≠ 0 ∨ pitch_speed ≠ 0 then [GimbalCmd.rotate yaw_speed pitch_speed]
         else [GimbalCmd.rotate 0 0], now)
      else ([], g.last_move_time)
    (some (yaw_speed, pitch_speed),
     { g with pid_yaw := yawStep.2, pid_pitch := pitchStep.2,
              last_move_time := sendStep.2 },
     sendStep.1)

/-- `GimbalController.stop()`: the commands it issues. -/
def GimbalController.stop (g : GimbalController) : List GimbalCmd :=
  if g.connected = false then [] else [GimbalCmd.rotate 0 0]

/-- `GimbalController.move_gimbal(yaw_speed, pitch_speed)`: returns
`False` and issues nothing when not connected, else forwards to the SDK
(`True` models the command having been handed to the facade). -/
def GimbalController.move_gimbal (g : GimbalController) (yaw pitch : Int) :
    Bool × List GimbalCmd :=
  if g.connected = false then (false, []) else (true, [GimbalCmd.rotate yaw pitch])

/-- `GimbalController.center()`: when connected, centers the device and
resets both axis PIDs; a no-op otherwise. -/
def GimbalController.center (g : GimbalController) :
    GimbalController × List GimbalCmd :=
  if g.connected = false then (g, [])
  else ({ g with pid_yaw := g.pid_yaw.reset, pid_pitch := g.pid_pitch.reset },
        [GimbalCmd.center])

/-- Folding a list of `update_tracking` calls
`(error_x, error_y, tPid, now)`, keeping the controller state. -/
def applyTracking (calls : List (ℚ × ℚ × ℚ × ℚ)) (g : GimbalController) :
    GimbalController :=
  calls.foldl (fun s c => (update_tracking s c.1 c.2.1 c.2.2.1 c.2.2.2).2.1) g

lemma update_tracking_connected (g : GimbalController) (ex ey tPid now : ℚ) :
    (update_tracking g ex ey tPid now).2.1.connected = g.connected := by
  rw [update_tracking]
  split <;> rfl

lemma update_tracking_deadzone (g : GimbalController) (ex ey tPid now : ℚ) :
    (update_tracking g ex ey tPid now).2.1.deadzone = g.deadzone := by
  rw [update_tracking]
  split <;> rfl

lemma update_tracking_deadzone_yaw (g : GimbalController) (ex ey tPid now : ℚ)
    (hconn : g.connected = true) (hdz : |ex| ≤ g.deadzone) :
    (update_tracking g ex ey tPid now).2.1.pid_yaw = g.pid_yaw.reset := by
  rw [update_tracking, if_neg (by rw [hconn]; exact Bool.noConfusion)]
  simp only [if_neg (by exact absurd · (not_lt.2 hdz))]

lemma update_tracking_deadzone_pitch (g : GimbalController) (ex ey tPid now : ℚ)
    (hconn : g.connected = true) (hdz : |ey| ≤ g.deadzone) :
    (update_tracking g ex ey tPid now).2.1.pid_pitch = g.pid_pitch.reset := by
  rw [update_tracking, if_neg (by rw [hconn]; exact Bool.noConfusion)]
  simp only [if_neg (by exact absurd · (not_lt.2 hdz))]

/-- **C7**: with the controller connected, an axis error inside the
deadzone yields axis speed exactly 0 and resets that axis's PID; and after
any nonempty run of `update_tracking` calls whose error on that axis stays
inside the deadzone, that axis's integral accumulator is 0 (so it never
grows). -/
theorem deadzone_axis_zero (g : GimbalController) (ex ey tPid now : ℚ)
    (hconn : g.connected = true) :
    (|ex| ≤ g.deadzone →
      ∃ ps, (update_tracking g ex ey tPid now).1 = some (0, ps) ∧
        (update_tracking g ex ey tPid now).2.1.pid_yaw = g.pid_yaw.reset) ∧
    (|ey| ≤ g.deadzone →
      ∃ ys, (update_tracking g ex ey tPid now).1 = some (ys, 0) ∧
        (update_tracking g ex ey tPid now).2.1.pid_pitch = g.pid_pitch.reset) ∧
    (∀ calls : List (ℚ × ℚ × ℚ × ℚ), calls ≠ [] →
      (∀ c ∈ calls, |c.1| ≤ g.deadzone) →
      (applyTracking calls g).pid_yaw.integral = 0) ∧
    (∀ calls : List (ℚ × ℚ × ℚ × ℚ), calls ≠ [] →
      (∀ c ∈ calls, |c.2.1| ≤ g.deadzone) →
      (applyTracking calls g).pid_pitch.integral = 0) := by
  refine ⟨?_, ?_, ?_, ?_⟩
  · intro hdz
    refine ⟨(update_tracking g ex ey tPid now).1.getD (0, 0) |>.2, ?_,
      update_tracking_deadzone_yaw g ex ey tPid now hconn hdz⟩
    rw [update_tracking, if_neg (by rw [hconn]; exact Bool.noConfusion)]
    simp only [if_neg (by exact absurd · (not_lt.2 hdz))]
    rfl
  · intro hdz
    refine ⟨(update_tracking g ex ey tPid now).1.getD (0, 0) |>.1, ?_,
      update_tracking_deadzone_pitch g ex ey tPid now hconn hdz⟩
    rw [update_tracking, if_neg (by rw [hconn]; exact Bool.noConfusion)]
    simp only [if_neg (by exact absurd · (not_lt.2 hdz))]
    rfl
  · intro calls
    induction calls generalizing g with
    | nil => intro h; exact absurd rfl h
    | cons c cs ih =>
        intro _ hall
        have hstep : (applyTracking (c :: cs) g) =
            applyTracking cs (update_tracking g c.1 c.2.1 c.2.2.1 c.2.2.2).2.1 := rfl
        rcases List.eq_nil_or_concat cs with hnil | _
        · subst hnil
          rw [hstep]
          show (update_tracking g c.1 c.2.1 c.2.2.1 c.2.2.2).2.1.pid_yaw.integral = 0
          rw [update_tracking_deadzone_yaw g _ _ _ _ hconn (hall c (by simp))]
          rfl
        · by_cases hcs : cs = []
          · subst hcs
            rw [hstep]
            show (update_tracking g c.1 c.2.1 c.2.2.1 c.2.2.2).2.1.pid_yaw.integral = 0
            rw [update_tracking_deadzone_yaw g _ _ _ _ hconn (hall c (by simp))]
            rfl
          · rw [hstep]
            exact ih _
              (by rw [update_tracking_connected]; exact hconn) hcs
              (fun d hd => by
                rw [update_tracking_deadzone]
                exact hall d (List.mem_cons_of_mem c hd))
  · intro calls
    induction calls generalizing g with
    | nil => intro h; exact absurd rfl h
    | cons c cs ih =>
        intro _ hall
        have hstep : (applyTracking (c :: cs) g) =
            applyTracking cs (update_tracking g c.1 c.2.1 c.2.2.1 c.2.2.2).2.1 := rfl
        by_cases hcs : cs = []
        · subst hcs
          rw [hstep]
          show (update_tracking g c.1 c.2.1 c.2.2.1 c.2.2.2).2.1.pid_pitch.integral = 0
          rw [update_tracking_deadzone_pitch g _ _ _ _ hconn (hall c (by simp))]
          rfl
        · rw [hstep]
          exact ih _
            (by rw [update_tracking_connected]; exact hconn) hcs
            (fun d hd => by
              rw [update_tracking_deadzone]
              exact hall d (List.mem_cons_of_mem c hd))

theorem deadzone_axis_zero_witness :
    (|(5 : ℚ)| ≤ (⟨true, mkPID 1 0 0 (-100, 100), mkPID 1 0 0 (-100, 100),
        20, 1/20, 0⟩ : GimbalController).deadzone →
      ∃ ps, (update_tracking ⟨true, mkPID 1 0 0 (-100, 100),
        mkPID 1 0 0 (-100, 100), 20, 1/20, 0⟩ 5 30 1 1).1 = some (0, ps) ∧
        (update_tracking ⟨true, mkPID 1 0 0 (-100, 100),
          mkPID 1 0 0 (-100, 100), 20, 1/20, 0⟩ 5 30 1 1).2.1.pid_yaw =
          (mkPID 1 0 0 (-100, 100)).reset) ∧
    (|(30 : ℚ)| ≤ (⟨true, mkPID 1 0 0 (-100, 100), mkPID 1 0 0 (-100, 100),
        20, 1/20, 0⟩ : GimbalController).deadzone →
      ∃ ys, (update_tracking ⟨true, mkPID 1 0 0 (-100, 100),
        mkPID 1 0 0 (-100, 100), 20, 1/20, 0⟩ 5 30 1 1).1 = some (ys, 0) ∧
        (update_tracking ⟨true, mkPID 1 0 0 (-100, 100),
          mkPID 1 0 0 (-100, 100), 20, 1/20, 0⟩ 5 30 1 1).2.1.pid_pitch =
          (mkPID 1 0 0 (-100, 100)).reset) ∧
    (∀ calls : List (ℚ × ℚ × ℚ × ℚ), calls ≠ [] →
      (∀ c ∈ calls, |c.1| ≤ (⟨true, mkPID 1 0 0 (-100, 100),
        mkPID 1 0 0 (-100, 100), 20, 1/20, 0⟩ : GimbalController).deadzone) →
      (applyTracking calls ⟨true, mkPID 1 0 0 (-100, 100),
        mkPID 1 0 0 (-100, 100), 20, 1/20, 0⟩).pid_yaw.integral = 0) ∧
    (∀ calls : List (ℚ × ℚ × ℚ × ℚ), calls ≠ [] →
      (∀ c ∈ calls, |c.2.1| ≤ (⟨true, mkPID 1 0 0 (-100, 100),
        mkPID 1 0 0 (-100, 100), 20, 1/20, 0⟩ : GimbalController).deadzone) →
      (applyTracking calls ⟨true, mkPID 1 0 0 (-100, 100),
        mkPID 1 0 0 (-100, 100), 20, 1/20, 0⟩).pid_pitch.integral = 0) :=
  deadzone_axis_zero ⟨true, mkPID 1 0 0 (-100, 100), mkPID 1 0 0 (-100, 100),
    20, 1/20, 0⟩ 5 30 1 1 rfl

/-!
## Connection layer
Embedded from `src/Tracker/src/hardware/siyi_sdk/siyi_connection.py`.
Socket writes are recorded as an explicit list of byte strings.
-/

/-- The state of a `SIYIConnection` relevant to sending: the `connected`
flag, whether `self.socket` is set, and the owned protocol session. -/
structure SIYIConnection where
  connected : Bool
  hasSocket : Bool
  protocol : SIYIProtocol
  deriving Repr, DecidableEq

/-- `SIYIConnection.send_packet(cmd_id, data, need_ack)`: returns `False`
immediately when not connected or the socket is absent (before touching the
protocol session); otherwise builds a packet (consuming a sequence number)
and writes it to the socket.  Result: the returned boolean, the updated
connection, and the byte strings written to the socket. -/
def send_packet (conn : SIYIConnection) (cmd_id : Nat) (data : List Nat)
    (need_ack : Bool) : Bool × SIYIConnection × List (List Nat) :=
  if conn.connected = false ∨ conn.hasSocket = false then (false, conn, [])
  else
    match build_packet conn.protocol cmd_id data need_ack with
    | (some pkt, st) => (true, { conn with protocol := st }, [pkt])
    | (none, st) => (false, { conn with protocol := st }, [])

/-- **C9**: while disconnected, motion commands are no-ops: `send_packet`
returns `False` with the connection (sequence counter included) unchanged
and nothing written to any socket, and the `GimbalController` motion
operations (`update_tracking`, `stop`, `move_gimbal`, `center`) return
without issuing any device command and without changing their state. -/
theorem disconnected_noops (conn : SIYIConnection) (cmd : Nat) (data : List Nat)
    (ack : Bool) (g : GimbalController) (ex ey tPid now : ℚ) (yaw pitch : Int)
    (hconn : conn.connected = false) (hg : g.connected = false) :
    send_packet conn cmd data ack = (false, conn, []) ∧
    update_tracking g ex ey tPid now = (none, g, []) ∧
    GimbalController.stop g = [] ∧
    GimbalController.move_gimbal g yaw pitch = (false, []) ∧
    GimbalController.center g = (g, []) := by
  refine ⟨?_, ?_, ?_, ?_, ?_⟩
  · rw [send_packet, if_pos (Or.inl hconn)]
  · rw [update_tracking, if_pos hg]
  · rw [GimbalController.stop, if_pos hg]
  · rw [GimbalController.move_gimbal, if_pos hg]
  · rw [GimbalController.center, if_pos hg]

theorem disconnected_noops_witness :
    send_packet ⟨false, false, .fresh⟩ 0x07 [0x10, 0x10] false =
      (false, ⟨false, false, .fresh⟩, []) ∧
    update_tracking ⟨false, mkPID 1 0 0 (-100, 100), mkPID 1 0 0 (-100, 100),
      20, 1/20, 0⟩ 50 50 1 1 =
      (none, ⟨false, mkPID 1 0 0 (-100, 100), mkPID 1 0 0 (-100, 100),
        20, 1/20, 0⟩, []) ∧
    GimbalController.stop ⟨false, mkPID 1 0 0 (-100, 100),
      mkPID 1 0 0 (-100, 100), 20, 1/20, 0⟩ = [] ∧
    GimbalController.move_gimbal ⟨false, mkPID 1 0 0 (-100, 100),
      mkPID 1 0 0 (-100, 100), 20, 1/20, 0⟩ 10 (-10) = (false, []) ∧
    GimbalController.center ⟨false, mkPID 1 0 0 (-100, 100),
      mkPID 1 0 0 (-100, 100), 20, 1/20, 0⟩ =
      (⟨false, mkPID 1 0 0 (-100, 100), mkPID 1 0 0 (-100, 100),
        20, 1/20, 0⟩, []) :=
  disconnected_noops ⟨false, false, .fresh⟩ 0x07 [0x10, 0x10] false
    ⟨false, mkPID 1 0 0 (-100, 100), mkPID 1 0 0 (-100, 100), 20, 1/20, 0⟩
    50 50 1 1 10 (-10) rfl rfl

/-!
## Identity-lock (BYTE) tracker selection
Embedded from `ObjectTracker.init` in `src/Tracker/src/detection/tracker.py`.
The code computes `dist = sqrt((tcx-mx)^2 + (tcy-my)^2)` and compares
`dist < min_dist` and `min_dist < 100`; square root is strictly monotone on
nonnegative reals, so the model compares squared distances against
`100^2 = 10000`, which keeps every quantity in `ℚ`.
-/

/-- One track returned by `BYTETracker.update`: its `tlwh` box and
persistent `track_id`. -/
structure STrack where
  tlwh : ℚ × ℚ × ℚ × ℚ
  track_id : Nat
  deriving Repr, DecidableEq

/-- `tcx, tcy = tx + tw/2, ty + th/2` for a track. -/
def trackCentroid (t : STrack) : ℚ × ℚ :=
  (t.tlwh.1 + t.tlwh.2.2.1 / 2, t.tlwh.2.1 + t.tlwh.2.2.2 / 2)

/-- `mx, my = x + w/2, y + h/2` for the requested bbox. -/
def bboxCenter (b : ℚ × ℚ × ℚ × ℚ) : ℚ × ℚ :=
  (b.1 + b.2.2.1 / 2, b.2.1 + b.2.2.2 / 2)

/-- Squared centroid distance (the square of the code's `dist`). -/
def centroidDistSq (t : STrack) (m : ℚ × ℚ) : ℚ :=
  ((trackCentroid t).1 - m.1) ^ 2 + ((trackCentroid t).2 - m.2) ^ 2

/-- One iteration of the selection loop: keep the closest candidate seen so
far (`none` plays the role of `min_dist = inf`, `best_id = None`). -/
def selStep (m : ℚ × ℚ) (acc : Option Nat × Option ℚ) (t : STrack) :
    Option Nat × Option ℚ :=
  match acc.2 with
  | none => (some t.track_id, some (centroidDistSq t m))
  | some mind =>
      if centroidDistSq t m < mind then (some t.track_id, some (centroidDistSq t m))
      else acc

/-- The `for t in online_targets` loop of `ObjectTracker.init`. -/
def selectLoop (targets : List STrack) (m : ℚ × ℚ) : Option Nat × Option ℚ :=
  targets.foldl (selStep m) (none, none)

/-- `ObjectTracker.init` in the BYTE branch, given the tracks of one
detection pass: returns the new `tracked_id` and `tracking_active`.
`hasDets` is whether `formatted_dets` was nonempty (when it is empty the
code skips selection entirely and leaves `tracking_active = True`);
`prev_id` is the previous `tracked_id`, which the code leaves untouched on
failure. -/
def byteInit (prev_id : Option Nat) (hasDets : Bool) (targets : List STrack)
    (bbox : ℚ × ℚ × ℚ × ℚ) : Option Nat × Bool :=
  if hasDets = false then (prev_id, true)
  else
    match selectLoop targets (bboxCenter bbox) with
    | (some bid, some mind) =>
        if mind < 10000 then (some bid, true) else (prev_id, false)
    | _ => (prev_id, false)

lemma selectLoop_go (m : ℚ × ℚ) (targets : List STrack) (b0 : Nat) (d0 : ℚ) :
    ∃ best mind,
      targets.foldl (selStep m) (some b0, some d0) = (some best, some mind) ∧
      mind ≤ d0 ∧
      ((best = b0 ∧ mind = d0) ∨
        ∃ t ∈ targets, t.track_id = best ∧ centroidDistSq t m = mind) ∧
      ∀ t ∈ targets, mind ≤ centroidDistSq t m := by
  induction targets generalizing b0 d0 with
  | nil => exact ⟨b0, d0, rfl, le_refl _, Or.inl ⟨rfl, rfl⟩, by simp⟩
  | cons t ts ih =>
      rw [List.foldl_cons]
      by_cases hlt : centroidDistSq t m < d0
      · have hstep : selStep m (some b0, some d0) t =
            (some t.track_id, some (centroidDistSq t m)) := by
          simp only [selStep]
          rw [if_pos hlt]
        rw [hstep]
        obtain ⟨best, mind, hfold, hle, hw, hmin⟩ := ih t.track_id (centroidDistSq t m)
        refine ⟨best, mind, hfold, le_trans hle (le_of_lt hlt), ?_, ?_⟩
        · rcases hw with ⟨hb, hm⟩ | ⟨u, hu, hid, hd⟩
          · exact Or.inr ⟨t, by simp, hb.symm ▸ rfl, hm.symm ▸ rfl⟩
          · exact Or.inr ⟨u, List.mem_cons_of_mem t hu, hid, hd⟩
        · intro u hu
          rcases List.mem_cons.1 hu with rfl | hu2
          · exact hle
          · exact hmin u hu2
      · have hstep : selStep m (some b0, some d0) t = (some b0, some d0) := by
          simp only [selStep]
          rw [if_neg hlt]
        rw [hstep]
        obtain ⟨best, mind, hfold, hle, hw, hmin⟩ := ih b0 d0
        refine ⟨best, mind, hfold, hle, ?_, ?_⟩
        · rcases hw with hk | ⟨u, hu, hid, hd⟩
          · exact Or.inl hk
          · exact Or.inr ⟨u, List.mem_cons_of_mem t hu, hid, hd⟩
        · intro u hu
          rcases List.mem_cons.1 hu with rfl | hu2
          · exact le_trans hle (not_lt.1 hlt)
          · exact hmin u hu2

lemma selectLoop_spec (targets : List STrack) (m : ℚ × ℚ) (h : targets ≠ []) :
    ∃ best mind, selectLoop targets m = (some best, some mind) ∧
      (∃ t ∈ targets, t.track_id = best ∧ centroidDistSq t m = mind) ∧
      ∀ t ∈ targets, mind ≤ centroidDistSq t m := by
  cases targets with
  | nil => exact absurd rfl h
  | cons t ts =>
      rw [selectLoop, List.foldl_cons]
      have hstep : selStep m (none, none) t =
          (some t.track_id, some (centroidDistSq t m)) := rfl
      rw [hstep]
      obtain ⟨best, mind, hfold, hle, hw, hmin⟩ :=
        selectLoop_go m ts t.track_id (centroidDistSq t m)
      refine ⟨best, mind, hfold, ?_, ?_⟩
      · rcases hw with ⟨hb, hm⟩ | ⟨u, hu, hid, hd⟩
        · exact ⟨t, by simp, hb.symm ▸ rfl, hm.symm ▸ rfl⟩
        · exact ⟨u, List.mem_cons_of_mem t hu, hid, hd⟩
      · intro u hu
        rcases List.mem_cons.1 hu with rfl | hu2
        · exact hle
        · exact hmin u hu2

/-- **C8** (amended): in identity-lock (BYTE) mode, `init` with at least
one track selects the track of minimal centroid distance to the bbox
center, and accepts it (remembering its identity and staying active) if and
only if that distance is *strictly* below 100 px (squared: 10000);
otherwise the tracker deactivates (returns toward Idle) and keeps the old
identity, reporting selection failure. -/
theorem byteInit_selects_closest (prev : Option Nat) (targets : List STrack)
    (bbox : ℚ × ℚ × ℚ × ℚ) (hne : targets ≠ []) :
    ∃ best mind,
      (∃ t ∈ targets, t.track_id = best ∧ centroidDistSq t (bboxCenter bbox) = mind) ∧
      (∀ t ∈ targets, mind ≤ centroidDistSq t (bboxCenter bbox)) ∧
      byteInit prev true targets bbox =
        if mind < 10000 then (some best, true) else (prev, false) := by
  obtain ⟨best, mind, hsel, hw, hmin⟩ := selectLoop_spec targets (bboxCenter bbox) hne
  refine ⟨best, mind, hw, hmin, ?_⟩
  rw [byteInit, if_neg (by exact Bool.noConfusion), hsel]

theorem byteInit_selects_closest_witness :
    ∃ best mind,
      (∃ t ∈ [(⟨(3, 4, 0, 0), 5⟩ : STrack)], t.track_id = best ∧
        centroidDistSq t (bboxCenter (0, 0, 0, 0)) = mind) ∧
      (∀ t ∈ [(⟨(3, 4, 0, 0), 5⟩ : STrack)],
        mind ≤ centroidDistSq t (bboxCenter (0, 0, 0, 0))) ∧
      byteInit none true [⟨(3, 4, 0, 0), 5⟩] (0, 0, 0, 0) =
        if mind < 10000 then (some best, true) else (none, false) :=
  byteInit_selects_closest none [⟨(3, 4, 0, 0), 5⟩] (0, 0, 0, 0) (by simp)

/-- **C8** counterexample: a single candidate whose centroid lies exactly
100 px from the requested point (squared distance 10000) is rejected —
`tracked_id` stays `None` and tracking deactivates — because the code
compares `min_dist < 100` strictly, while the claim's "≤ 100 px" demands
acceptance. -/
theorem byteInit_distance_100_rejected :
    centroidDistSq ⟨(100, 0, 0, 0), 7⟩ (bboxCenter (0, 0, 0, 0)) = 10000 ∧
    byteInit none true [⟨(100, 0, 0, 0), 7⟩] (0, 0, 0, 0) = (none, false) := by
  constructor
  · norm_num [centroidDistSq, trackCentroid, bboxCenter]
  · rw [byteInit, if_neg (by exact Bool.noConfusion)]
    have hsel : selectLoop [⟨(100, 0, 0, 0), 7⟩] (bboxCenter (0, 0, 0, 0)) =
        (some 7, some 10000) := by
      rw [selectLoop, List.foldl_cons]
      norm_num [selStep, centroidDistSq, trackCentroid, bboxCenter, List.foldl_nil]
    rw [hsel]
    norm_num

end Tracking
